import Mathlib

set_option allowUnsafeReducibility true
attribute [semireducible] Rat.add Rat.mul Rat.sub Rat.inv Rat.div

/-!
Shallow embedding of the platformer in `src/main.cpp` (classes `Player` and
`GameView`).  Coordinates are rationals (the C++ code computes with `qreal`,
i.e. real-valued arithmetic; none of the verified claims depends on
floating-point rounding), and the vertical velocity is an integer as in the
source (`int verticalVelocity`, idealized without overflow).  The Qt
framework is the external collaborator of the spec: item rectangles are
modelled by the rectangles the program sets (the half-pen-width adjustment
of `boundingRect`/`shape` is abstracted away, as the spec treats drawing as
a black box and the player as a `20 x 20` box), `QRectF::intersects` is
strict overlap, `collidesWithItem` is closed-region intersection of the
underlying shapes, and `QRandomGenerator` draws are modelled by an oracle
stream `Nat -> Rat` interpreted by `boundedQ`/`boundedInt`.  The rejection
loops of `generateLevel` get explicit fuel: a `none` result corresponds to
a run of the unbounded C++ loop that has not terminated within the fuel.
-/

/-- A point, as `QPointF`. -/
structure Pt where
  x : ℚ
  y : ℚ
  deriving DecidableEq

/-- An axis-aligned rectangle `(x, y, w, h)`, as `QRectF` or a rectangle
item. -/
structure RectQ where
  x : ℚ
  y : ℚ
  w : ℚ
  h : ℚ
  deriving DecidableEq

/-- A spike triangle: the three `QPolygonF` vertices built in
`generateLevel` (`main.cpp:173-176`). -/
structure Tri where
  p1 : Pt
  p2 : Pt
  p3 : Pt
  deriving DecidableEq

/-- The held-keys set restricted to the three keys the game reads:
`A` (left), `D` (right) and `W` (jump). -/
structure Input where
  a : Bool
  d : Bool
  w : Bool
  deriving DecidableEq

/-- Result of the vertical resolution inside `updatePosition`: the pending
`nextPos`, the vertical velocity and the `onGround` flag. -/
structure MoveRes where
  pos : Pt
  vel : ℤ
  og : Bool
  deriving DecidableEq

/-- The mutable fields of `GameView` that the simulation reads or writes,
plus the cursor into the random oracle modelling `QRandomGenerator`. -/
structure GameState where
  playerPos : Pt
  verticalVelocity : ℤ
  deaths : ℕ
  level : ℕ
  lastSpawnPos : Pt
  platforms : List RectQ
  triangles : List Tri
  winCircle : RectQ
  livesText : String
  levelsText : String
  gameOverShown : Bool
  rngIdx : ℕ
  deriving DecidableEq

/-- Qt `qBound(lo, v, hi) = qMax(lo, qMin(hi, v))`. -/
def qBound (lo v hi : ℚ) : ℚ := max lo (min hi v)

/-- Model of the real-valued `QRandomGenerator::bounded(highest)`: the next
oracle value when it already lies in `[0, highest)`, else `0` (any
interpretation with range `[0, highest)` is faithful to the generator's
contract, on which the verified claims rely). -/
def boundedQ (r hi : ℚ) : ℚ := if 0 ≤ r ∧ r < hi then r else 0

/-- Model of the integer `QRandomGenerator::bounded(lowest, highest)`: the
floor of the next oracle value when it lies in `[lowest, highest)`, else
`lowest`. -/
def boundedInt (r : ℚ) (lo hi : ℤ) : ℤ :=
  if lo ≤ r.floor ∧ r.floor < hi then r.floor else lo

/-- The strict-overlap test of `QRectF::intersects` (edge contact does not
count), for the positive-size rectangles the program builds. -/
def rectsIntersect (a b : RectQ) : Prop :=
  a.x < b.x + b.w ∧ b.x < a.x + a.w ∧ a.y < b.y + b.h ∧ b.y < a.y + a.h

instance (a b : RectQ) : Decidable (rectsIntersect a b) := by
  unfold rectsIntersect
  infer_instance

/-- Squared Euclidean distance; `QLineF::length(a, b) < c` for `c ≥ 0` is
equivalent to `distSq a b < c * c`. -/
def distSq (a b : Pt) : ℚ :=
  (a.x - b.x) * (a.x - b.x) + (a.y - b.y) * (a.y - b.y)

/-- Squared distance from the center of the ellipse item `c` to the closest
point of the player's `20 x 20` box placed at `p`. -/
def circDistSq (p : Pt) (c : RectQ) : ℚ :=
  (c.x + c.w / 2 - qBound p.x (c.x + c.w / 2) (p.x + 20)) *
      (c.x + c.w / 2 - qBound p.x (c.x + c.w / 2) (p.x + 20)) +
    (c.y + c.h / 2 - qBound p.y (c.y + c.h / 2) (p.y + 20)) *
      (c.y + c.h / 2 - qBound p.y (c.y + c.h / 2) (p.y + 20))

/-- Model of `player->collidesWithItem(winCircle)` (`main.cpp:289`): the
player's box meets the closed disc inscribed in the `30 x 30` ellipse
rectangle. -/
def rectCircleCollide (p : Pt) (c : RectQ) : Prop :=
  circDistSq p c ≤ (c.w / 2) * (c.w / 2)

instance (p : Pt) (c : RectQ) : Decidable (rectCircleCollide p c) := by
  unfold rectCircleCollide
  infer_instance

/-- Dot product of two points viewed as vectors. -/
def dotP (u v : Pt) : ℚ := u.x * v.x + u.y * v.y

/-- An (unnormalized) normal of the edge from `a` to `b`. -/
def edgeNormal (a b : Pt) : Pt := ⟨a.y - b.y, b.x - a.x⟩

/-- Minimum of three rationals. -/
def min3 (a b c : ℚ) : ℚ := min a (min b c)

/-- Maximum of three rationals. -/
def max3 (a b c : ℚ) : ℚ := max a (max b c)

/-- Minimum of four rationals. -/
def min4 (a b c d : ℚ) : ℚ := min a (min3 b c d)

/-- Maximum of four rationals. -/
def max4 (a b c d : ℚ) : ℚ := max a (max3 b c d)

/-- Overlap of the projections of the player's box at `p` and of the
triangle `t` on the axis `u` (closed intervals). -/
def axisOverlap (u : Pt) (p : Pt) (t : Tri) : Prop :=
  min4 (dotP u ⟨p.x, p.y⟩) (dotP u ⟨p.x + 20, p.y⟩) (dotP u ⟨p.x, p.y + 20⟩)
      (dotP u ⟨p.x + 20, p.y + 20⟩) ≤
    max3 (dotP u t.p1) (dotP u t.p2) (dotP u t.p3) ∧
  min3 (dotP u t.p1) (dotP u t.p2) (dotP u t.p3) ≤
    max4 (dotP u ⟨p.x, p.y⟩) (dotP u ⟨p.x + 20, p.y⟩) (dotP u ⟨p.x, p.y + 20⟩)
      (dotP u ⟨p.x + 20, p.y + 20⟩)

instance (u p : Pt) (t : Tri) : Decidable (axisOverlap u p t) := by
  unfold axisOverlap
  infer_instance

/-- Model of `player->collidesWithItem(tri)` (`main.cpp:296`): separating
axis test between the player's closed box at `p` and the closed spike
triangle `t`. -/
def rectTriCollide (p : Pt) (t : Tri) : Prop :=
  axisOverlap ⟨1, 0⟩ p t ∧ axisOverlap ⟨0, 1⟩ p t ∧
  axisOverlap (edgeNormal t.p1 t.p2) p t ∧
  axisOverlap (edgeNormal t.p2 t.p3) p t ∧
  axisOverlap (edgeNormal t.p3 t.p1) p t

instance (p : Pt) (t : Tri) : Decidable (rectTriCollide p t) := by
  unfold rectTriCollide
  infer_instance

/-- The landing condition of the platform loop (`main.cpp:263-264`): the
tentative next-frame box strictly intersects the platform, the
post-gravity velocity is `≤ 0`, and the current bottom edge is at or above
the platform's top edge. -/
def landCond (curY : ℚ) (next : Pt) (v : ℤ) (p : RectQ) : Prop :=
  rectsIntersect ⟨next.x, next.y, 20, 20⟩ p ∧ v ≤ 0 ∧ curY + 20 ≤ p.y

instance (curY : ℚ) (next : Pt) (v : ℤ) (p : RectQ) : Decidable (landCond curY next v p) := by
  unfold landCond
  infer_instance

/-- The platform loop (`main.cpp:258-270`): the first platform satisfying
`landCond` snaps the player's bottom edge to its top edge, zeroes the
velocity and sets `onGround`; the loop `break`s there, so later platforms
are never consulted. -/
def landScan (curY : ℚ) (next : Pt) (v : ℤ) : List RectQ → MoveRes
  | [] => ⟨next, v, false⟩
  | p :: ps =>
    if landCond curY next v p then ⟨⟨next.x, p.y - 20⟩, 0, true⟩
    else landScan curY next v ps

/-- The horizontal input translation (`main.cpp:247-248`): `+7` when `D` is
held, `-7` when `A` is held. -/
def tentativeX (inp : Input) (s : GameState) : ℚ :=
  let x1 := if inp.d then s.playerPos.x + 7 else s.playerPos.x
  if inp.a then x1 - 7 else x1

/-- The floor clamp (`main.cpp:273-277`): if the pending position is at or
below the scene bottom minus the player height, snap to it, zero the
velocity and mark `onGround`. -/
def floorClamp (H : ℚ) (r : MoveRes) : MoveRes :=
  if H - 20 ≤ r.pos.y then ⟨⟨r.pos.x, H - 20⟩, 0, true⟩ else r

/-- Gravity, platform landing and the floor clamp (`main.cpp:250-277`).
`H` is the scene height, so the scene bottom edge is at `H`; positive
velocity means upward, and the tentative next y is the current y minus the
decremented velocity. -/
def groundedRes (H : ℚ) (inp : Input) (s : GameState) : MoveRes :=
  floorClamp H (landScan s.playerPos.y
    ⟨tentativeX inp s, s.playerPos.y - ((s.verticalVelocity - 1 : ℤ) : ℚ)⟩
    (s.verticalVelocity - 1) s.platforms)

/-- One run of `updatePosition` up to and including
`player->setPos(nextPos)` (`main.cpp:242-286`): horizontal input, gravity,
platform landing, floor clamp, jump (which runs after the vertical
resolution and only changes the velocity), horizontal clamp, commit. -/
def movePhase (W H : ℚ) (inp : Input) (s : GameState) : GameState :=
  { s with
    playerPos := ⟨qBound 0 (groundedRes H inp s).pos.x (W - 20), (groundedRes H inp s).pos.y⟩
    verticalVelocity :=
      if inp.w && (groundedRes H inp s).og then 20 else (groundedRes H inp s).vel }

/-- The `livesText` content set by `updateHUD` (`main.cpp:211`). -/
def livesString (d : ℕ) : String := "Lives left: " ++ toString (10 - (d : ℤ))

/-- The `levelsText` content set by `updateHUD` (`main.cpp:212`). -/
def levelsString (l : ℕ) : String := "Levels won: " ++ toString (l : ℤ)

/-- `GameView::updateHUD` (`main.cpp:210-213`). -/
def updateHUD (s : GameState) : GameState :=
  { s with livesText := livesString s.deaths, levelsText := levelsString s.level }

/-- The spike loop (`main.cpp:295-301`): on the first triangle the player
collides with, increment `deaths`, teleport to `lastSpawnPos` and `break`;
the vertical velocity is not touched on this path. -/
def hazardScan (s : GameState) : List Tri → GameState
  | [] => s
  | t :: ts =>
    if rectTriCollide s.playerPos t then
      { s with deaths := s.deaths + 1, playerPos := s.lastSpawnPos }
    else hazardScan s ts

/-- The goal-position rejection loop (`main.cpp:148-151`): sample
`(bounded W, bounded (H / 2))` and repeat while the squared distance to the
spawn is below `150 * 150`.  Returns the point and the advanced oracle
cursor; `none` when the fuel runs out. -/
def sampleGoal (oracle : ℕ → ℚ) (spawn : Pt) (W H : ℚ) : ℕ → ℕ → Option (Pt × ℕ)
  | _, 0 => none
  | k, fuel + 1 =>
    if distSq spawn ⟨boundedQ (oracle k) W, boundedQ (oracle (k + 1)) (H / 2)⟩ < 150 * 150 then
      sampleGoal oracle spawn W H (k + 2) fuel
    else some (⟨boundedQ (oracle k) W, boundedQ (oracle (k + 1)) (H / 2)⟩, k + 2)

/-- The per-band horizontal rejection loop (`main.cpp:161-163`): sample
`bounded (W - 80)` and repeat while the sample sits inside the spawn
exclusion zone (`|x - spawn.x| < 100` and `|y - spawn.y| < 80`). -/
def sampleX (oracle : ℕ → ℚ) (spawn : Pt) (y W : ℚ) : ℕ → ℕ → Option (ℚ × ℕ)
  | _, 0 => none
  | k, fuel + 1 =>
    if |boundedQ (oracle k) (W - 80) - spawn.x| < 100 ∧ |y - spawn.y| < 80 then
      sampleX oracle spawn y W (k + 1) fuel
    else some (boundedQ (oracle k) (W - 80), k + 1)

/-- The spike triangle placed on a path platform at `(x, y)` with integer
offset `off` (`main.cpp:173-176`). -/
def spikeTri (x y : ℚ) (off : ℤ) : Tri :=
  ⟨⟨x + (off : ℚ) + 10, y - 10⟩, ⟨x + (off : ℚ), y⟩, ⟨x + (off : ℚ) + 20, y⟩⟩

/-- The path-platform loop (`main.cpp:158-182`): `n` counts the remaining
bands and `i` the current band index, so band `i` sits at
`y = spawn.y - i * stepY`; each band resamples its x coordinate through
`sampleX` and, with the 40 percent draw, places one spike on the
platform. -/
def genPath (oracle : ℕ → ℚ) (spawn : Pt) (stepY W : ℚ) :
    ℕ → ℕ → ℕ → ℕ → Option (List RectQ × List Tri × ℕ)
  | 0, _, k, _ => some ([], [], k)
  | n + 1, i, k, fuel =>
    match sampleX oracle spawn (spawn.y - (i : ℚ) * stepY) W k fuel with
    | none => none
    | some (x, k1) =>
      if boundedInt (oracle k1) 0 100 < 40 then
        match genPath oracle spawn stepY W n (i + 1) (k1 + 2) fuel with
        | none => none
        | some (ps, ts, k2) =>
          some (⟨x, spawn.y - (i : ℚ) * stepY, 80, 10⟩ :: ps,
            spikeTri x (spawn.y - (i : ℚ) * stepY) (boundedInt (oracle (k1 + 1)) 10 70) :: ts,
            k2)
      else
        match genPath oracle spawn stepY W n (i + 1) (k1 + 1) fuel with
        | none => none
        | some (ps, ts, k2) =>
          some (⟨x, spawn.y - (i : ℚ) * stepY, 80, 10⟩ :: ps, ts, k2)

/-- The safe-platform loop near the goal (`main.cpp:186-196`): each
platform is offset from the goal by integer draws and clamped to the scene
with `qBound`. -/
def genSafe (oracle : ℕ → ℚ) (win : Pt) (W H : ℚ) : ℕ → ℕ → List RectQ × ℕ
  | 0, k => ([], k)
  | n + 1, k =>
    let px := qBound 0 (win.x + ((boundedInt (oracle k) (-60) 60 : ℤ) : ℚ)) (W - 80)
    let py := qBound 0 (win.y + 40 + ((boundedInt (oracle (k + 1)) 0 40 : ℤ) : ℚ)) (H - 10)
    let r := genSafe oracle win W H n (k + 2)
    (⟨px, py, 80, 10⟩ :: r.1, r.2)

/-- The bootstrap test `level == 0 || lastSpawnPos.isNull()`
(`main.cpp:130`); `QPointF::isNull` holds when both coordinates are
zero. -/
def bootstrapCond (s : GameState) : Prop :=
  s.level = 0 ∨ (s.lastSpawnPos.x = 0 ∧ s.lastSpawnPos.y = 0)

instance (s : GameState) : Decidable (bootstrapCond s) := by
  unfold bootstrapCond
  infer_instance

/-- `GameView::generateLevel` (`main.cpp:106-206`) over scene bounds
`(0, 0, W, H)`: replaces the whole layout, either with the deterministic
bootstrap layout or with the sampled one, teleports the player to the
spawn point and recomputes the HUD.  `none` means a rejection loop ran out
of fuel. -/
def generateLevel (W H : ℚ) (oracle : ℕ → ℚ) (fuel : ℕ) (s : GameState) : Option GameState :=
  if bootstrapCond s then
    some (updateHUD { s with
      playerPos := ⟨W / 2, H - 20⟩
      lastSpawnPos := ⟨W / 2, H - 20⟩
      winCircle := ⟨W / 2 - 100, H - 50, 30, 30⟩
      platforms := [⟨W / 2 - 40, (H - 20) + 20, 100, 10⟩]
      triangles := []
      gameOverShown := false })
  else
    match sampleGoal oracle s.lastSpawnPos W H s.rngIdx fuel with
    | none => none
    | some (win, k1) =>
      match genPath oracle s.lastSpawnPos ((s.lastSpawnPos.y - win.y) / 14) W 14 0 k1 fuel with
      | none => none
      | some (pp, tris, k2) =>
        some (updateHUD { s with
          playerPos := s.lastSpawnPos
          winCircle := ⟨win.x, win.y, 30, 30⟩
          platforms :=
            pp ++ (genSafe oracle win W H (boundedInt (oracle k2) 2 4).toNat (k2 + 1)).1
          triangles := tris
          gameOverShown := false
          rngIdx := (genSafe oracle win W H (boundedInt (oracle k2) 2 4).toNat (k2 + 1)).2 })

/-- The goal check of a tick (`main.cpp:289-292`): on contact with the win
circle the level counter increments and `generateLevel` rebuilds the
layout (which teleports the player to the spawn point). -/
def goalPhase (W H : ℚ) (oracle : ℕ → ℚ) (fuel : ℕ) (s : GameState) : Option GameState :=
  if rectCircleCollide s.playerPos s.winCircle then
    generateLevel W H oracle fuel { s with level := s.level + 1 }
  else some s

/-- One invocation of `GameView::updatePosition` (`main.cpp:232-305`): the
game-over guard, the move phase, the goal check, the spike scan and the
HUD refresh, in source order. -/
def tick (W H : ℚ) (inp : Input) (oracle : ℕ → ℚ) (fuel : ℕ) (s : GameState) : Option GameState :=
  if 10 ≤ s.deaths then some { s with gameOverShown := true }
  else
    (goalPhase W H oracle fuel (movePhase W H inp s)).map
      (fun s2 => updateHUD (hazardScan s2 s2.triangles))

/-- `n` consecutive ticks, with the per-tick input stream `inps`. -/
def tickN (W H : ℚ) (inps : ℕ → Input) (oracle : ℕ → ℚ) (fuel : ℕ) : ℕ → GameState → Option GameState
  | 0, s => some s
  | n + 1, s => (tick W H (inps n) oracle fuel s).bind (tickN W H inps oracle fuel n)

/-- The terminal condition guarding every tick (`main.cpp:234`): the state
machine is in `GameOver` exactly when ten deaths have been reached. -/
def isGameOver (s : GameState) : Prop := 10 ≤ s.deaths

/-! Concrete data used to evaluate the definitions on explicit inputs. -/

/-- A constant random oracle. -/
def zeroOracle : ℕ → ℚ := fun _ => 0

/-- No key held. -/
def noKeys : Input := ⟨false, false, false⟩

/-- Only `W` (jump) held. -/
def jumpKey : Input := ⟨false, false, true⟩

/-- A player at rest on a platform: the bottom edge `380 + 20` sits on the
platform top `400`, the velocity is zero, and neither the goal nor any
spike is in contact. -/
def sRest : GameState :=
  { playerPos := ⟨500, 380⟩
    verticalVelocity := 0
    deaths := 0
    level := 3
    lastSpawnPos := ⟨500, 380⟩
    platforms := [⟨480, 400, 100, 10⟩]
    triangles := []
    winCircle := ⟨0, 0, 30, 30⟩
    livesText := ""
    levelsText := ""
    gameOverShown := false
    rngIdx := 0 }

/-- A player in free fall far from every platform and from the floor. -/
def sAir : GameState := { sRest with platforms := [], playerPos := ⟨100, 100⟩ }

/-- A state that takes the bootstrap branch of `generateLevel`. -/
def sBoot : GameState := { sRest with level := 0 }

/-- A non-bootstrap state for `generateLevel` (`level = 1`, non-null
anchor). -/
def sGen : GameState := { sRest with level := 1, lastSpawnPos := ⟨600, 400⟩ }

/-- A spike sitting just below a falling player. -/
def spike0 : Tri := ⟨⟨510, 441⟩, ⟨500, 451⟩, ⟨520, 451⟩⟩

/-- A falling player about to land on the spike `spike0` with nine deaths
already on the counter. -/
def sHaz : GameState :=
  { sRest with
    playerPos := ⟨500, 430⟩
    platforms := []
    triangles := [spike0]
    deaths := 9
    lastSpawnPos := ⟨600, 400⟩
    level := 2 }

/-- Like `sHaz` but with three deaths on the counter. -/
def sHaz3 : GameState := { sHaz with deaths := 3 }

/-- The state `sHaz3` after its move phase: fallen one unit, velocity
decremented, nothing else changed. -/
def sHaz3Moved : GameState := { sHaz3 with playerPos := ⟨500, 431⟩, verticalVelocity := -1 }

/-- The state `sHaz` after one full tick: the spike was hit, the tenth
death registered, the player teleported to the anchor and the HUD
refreshed. -/
def sHazAfter : GameState :=
  { sHaz with
    playerPos := ⟨600, 400⟩
    verticalVelocity := -1
    deaths := 10
    livesText := "Lives left: 0"
    levelsText := "Levels won: 2" }

/-- A falling player overlapping the win circle this tick. -/
def sWin : GameState :=
  { sRest with
    playerPos := ⟨500, 430⟩
    platforms := []
    triangles := [spike0]
    winCircle := ⟨490, 420, 30, 30⟩
    level := 1
    lastSpawnPos := ⟨600, 400⟩ }

/-- The hypotheses of the (amended) rest idempotence claim: zero vertical
velocity; the player rests on some platform of positive height (bottom edge
on its top edge, horizontal spans strictly overlapping); every platform
passing the landing test from this state has its top edge at the player's
bottom edge (so the first match re-snaps to the same height); the resting
spot is within the horizontal bounds and not below the floor line; and the
resting box touches neither the win circle nor any spike. -/
def RestingNoContact (W H : ℚ) (s : GameState) : Prop :=
  s.verticalVelocity = 0 ∧
  (∃ p ∈ s.platforms, 0 < p.h ∧ s.playerPos.y + 20 = p.y ∧
    s.playerPos.x < p.x + p.w ∧ p.x < s.playerPos.x + 20) ∧
  (∀ q ∈ s.platforms,
    landCond s.playerPos.y ⟨s.playerPos.x, s.playerPos.y + 1⟩ (-1) q →
      q.y = s.playerPos.y + 20) ∧
  s.playerPos.y ≤ H - 20 ∧ 0 ≤ s.playerPos.x ∧ s.playerPos.x ≤ W - 20 ∧
  ¬ rectCircleCollide s.playerPos s.winCircle ∧
  (∀ t ∈ s.triangles, ¬ rectTriCollide s.playerPos t)

instance (W H : ℚ) (s : GameState) : Decidable (RestingNoContact W H s) := by
  unfold RestingNoContact
  infer_instance

/-! Helper lemmas about the loops of `updatePosition`. -/

/-- When every matching platform has its top at height `Y` and at least one
platform matches, the loop lands at `Y`. -/
theorem landScan_first_uniform (curY : ℚ) (next : Pt) (v : ℤ) (l : List RectQ) (Y : ℚ)
    (hex : ∃ p ∈ l, landCond curY next v p)
    (hall : ∀ q ∈ l, landCond curY next v q → q.y = Y) :
    landScan curY next v l = ⟨⟨next.x, Y - 20⟩, 0, true⟩ := by
  induction l with
  | nil => simp at hex
  | cons q qs ih =>
    by_cases hq : landCond curY next v q
    · have hy := hall q (List.mem_cons_self q qs) hq
      simp only [landScan, if_pos hq, hy]
    · simp only [landScan, if_neg hq]
      rcases hex with ⟨p, hp, hpc⟩
      rcases List.mem_cons.mp hp with rfl | hp'
      · exact absurd hpc hq
      · exact ih ⟨p, hp', hpc⟩ fun r hr => hall r (List.mem_cons_of_mem q hr)

/-- A spike scan over a list the player touches nowhere is the identity. -/
theorem hazardScan_none (s : GameState) (l : List Tri)
    (h : ∀ t ∈ l, ¬ rectTriCollide s.playerPos t) : hazardScan s l = s := by
  induction l with
  | nil => rfl
  | cons t ts ih =>
    have ht := h t (List.mem_cons_self t ts)
    simp only [hazardScan, if_neg ht]
    exact ih fun r hr => h r (List.mem_cons_of_mem t hr)

/-- A spike scan over a list the player touches somewhere increments the
death counter exactly once and teleports to the respawn anchor, whatever
the number of touched spikes. -/
theorem hazardScan_hit (s : GameState) (l : List Tri)
    (h : ∃ t ∈ l, rectTriCollide s.playerPos t) :
    hazardScan s l = { s with deaths := s.deaths + 1, playerPos := s.lastSpawnPos } := by
  induction l with
  | nil => simp at h
  | cons t ts ih =>
    by_cases ht : rectTriCollide s.playerPos t
    · simp only [hazardScan, if_pos ht]
    · simp only [hazardScan, if_neg ht]
      rcases h with ⟨r, hr, hrc⟩
      rcases List.mem_cons.mp hr with rfl | hr'
      · exact absurd hrc ht
      · exact ih ⟨r, hr', hrc⟩

/-- In the terminal state a tick only (idempotently) shows the game-over
message. -/
theorem tick_frozen (W H : ℚ) (inp : Input) (oracle : ℕ → ℚ) (fuel : ℕ) (s : GameState)
    (h : 10 ≤ s.deaths) :
    tick W H inp oracle fuel s = some { s with gameOverShown := true } := by
  unfold tick
  rw [if_pos h]

/-- One tick from a resting, contact-free state preserves the player
position, keeps the vertical velocity at zero and leaves the level
geometry untouched (only the HUD strings and the game-over flag may be
rewritten). -/
theorem rest_tick_step (W H : ℚ) (inp : Input) (oracle : ℕ → ℚ) (fuel : ℕ) (s : GameState)
    (hinp : inp.a = false ∧ inp.d = false ∧ inp.w = false)
    (hr : RestingNoContact W H s) :
    ∃ s', tick W H inp oracle fuel s = some s' ∧
      s'.playerPos = s.playerPos ∧ s'.verticalVelocity = 0 ∧
      s'.platforms = s.platforms ∧ s'.winCircle = s.winCircle ∧
      s'.triangles = s.triangles := by
  obtain ⟨hv, ⟨p, hp, hph, hpy, hx1, hx2⟩, hall, hfloor, hxlo, hxhi, hgoal, htris⟩ := hr
  by_cases hd : 10 ≤ s.deaths
  · exact ⟨{ s with gameOverShown := true }, tick_frozen W H inp oracle fuel s hd,
      rfl, hv, rfl, rfl, rfl⟩
  -- the playing branch
  have hx : tentativeX inp s = s.playerPos.x := by
    simp [tentativeX, hinp.1, hinp.2.1]
  have ev : s.verticalVelocity - 1 = (-1 : ℤ) := by rw [hv]; decide
  have ey : s.playerPos.y - ((s.verticalVelocity - 1 : ℤ) : ℚ) = s.playerPos.y + 1 := by
    rw [ev]
    push_cast
    ring
  have hex : landCond s.playerPos.y ⟨s.playerPos.x, s.playerPos.y + 1⟩ (-1) p := by
    unfold landCond rectsIntersect
    simp only
    exact ⟨⟨hx1, hx2, by linarith, by linarith⟩, by decide, le_of_eq hpy⟩
  have hscan : landScan s.playerPos.y ⟨s.playerPos.x, s.playerPos.y + 1⟩ (-1) s.platforms =
      ⟨⟨s.playerPos.x, s.playerPos.y + 20 - 20⟩, 0, true⟩ :=
    landScan_first_uniform _ _ _ _ _ ⟨p, hp, hex⟩ hall
  have hscan' : landScan s.playerPos.y ⟨s.playerPos.x, s.playerPos.y + 1⟩ (-1) s.platforms =
      ⟨⟨s.playerPos.x, s.playerPos.y⟩, 0, true⟩ := by
    rw [hscan]
    norm_num
  have hg : groundedRes H inp s = ⟨⟨s.playerPos.x, s.playerPos.y⟩, 0, true⟩ := by
    unfold groundedRes
    rw [hx, ev]
    rw [show s.playerPos.y - ((-1 : ℤ) : ℚ) = s.playerPos.y + 1 by push_cast; ring]
    rw [hscan']
    unfold floorClamp
    simp only
    rcases lt_or_eq_of_le hfloor with hlt | heq
    · rw [if_neg (not_le.mpr hlt)]
    · rw [if_pos (le_of_eq heq.symm), heq]
  have hb : qBound 0 s.playerPos.x (W - 20) = s.playerPos.x := by
    unfold qBound
    rw [min_eq_right hxhi, max_eq_right hxlo]
  have hm : movePhase W H inp s = { s with verticalVelocity := 0 } := by
    unfold movePhase
    rw [hg, hinp.2.2]
    simp only [Bool.false_and, Bool.false_eq_true, if_false, hb]
  have hgp : goalPhase W H oracle fuel { s with verticalVelocity := 0 } =
      some { s with verticalVelocity := 0 } := by
    unfold goalPhase
    rw [if_neg hgoal]
  have hhs : hazardScan { s with verticalVelocity := 0 } s.triangles =
      { s with verticalVelocity := 0 } :=
    hazardScan_none { s with verticalVelocity := 0 } s.triangles htris
  refine ⟨updateHUD { s with verticalVelocity := 0 }, ?_, rfl, rfl, rfl, rfl, rfl⟩
  unfold tick
  rw [if_neg hd, hm, hgp]
  simp only [Option.map_some']
  rw [hhs]

/-- C2, counterexample: the state `sRest` is at rest on its (only)
platform — bottom edge `380 + 20 = 400` on the platform top `400` — with
zero vertical velocity and no horizontal key held (`jumpKey` holds only
the jump key `W`), yet the next tick changes the vertical velocity from
`0` to `20`: the claim, which allows any input as long as no horizontal
key is held, fails as stated. -/
theorem rest_not_preserved_with_jump :
    sRest.verticalVelocity = 0 ∧
    (⟨480, 400, 100, 10⟩ : RectQ) ∈ sRest.platforms ∧
    sRest.playerPos.y + 20 = (⟨480, 400, 100, 10⟩ : RectQ).y ∧
    jumpKey.a = false ∧ jumpKey.d = false ∧
    (tick 1000 500 jumpKey zeroOracle 1 sRest).map (fun t => t.verticalVelocity) ≠
      some sRest.verticalVelocity := by
  refine ⟨rfl, by decide, by decide, rfl, rfl, ?_⟩
  decide

/-- C2, amended: a player at rest on a platform with zero vertical
velocity, with no horizontal *and no jump* input held over the whole run,
whose resting spot is inside the horizontal bounds, not below the floor
line, touches neither the win circle nor any spike, and for which every
platform passing the landing test has its top edge at the player's bottom
edge, keeps exactly the same position and zero vertical velocity for an
arbitrary number of ticks. -/
theorem rest_fixed_point (W H : ℚ) (inps : ℕ → Input) (oracle : ℕ → ℚ) (fuel : ℕ)
    (s : GameState) (n : ℕ)
    (hinp : ∀ m, (inps m).a = false ∧ (inps m).d = false ∧ (inps m).w = false)
    (hr : RestingNoContact W H s) :
    ∃ s', tickN W H inps oracle fuel n s = some s' ∧
      s'.playerPos = s.playerPos ∧ s'.verticalVelocity = 0 := by
  induction n generalizing s with
  | zero => exact ⟨s, rfl, rfl, hr.1⟩
  | succ n ih =>
    obtain ⟨s1, hstep, e1, e2, e3, e4, e5⟩ :=
      rest_tick_step W H (inps n) oracle fuel s (hinp n) hr
    have hr1 : RestingNoContact W H s1 := by
      unfold RestingNoContact at hr ⊢
      rw [e1, e2, e3, e4, e5]
      exact ⟨rfl, hr.2.1, hr.2.2.1, hr.2.2.2.1, hr.2.2.2.2.1, hr.2.2.2.2.2.1,
        hr.2.2.2.2.2.2.1, hr.2.2.2.2.2.2.2⟩
    obtain ⟨s', hrun, f1, f2⟩ := ih s1 hr1
    refine ⟨s', ?_, by rw [f1, e1], f2⟩
    show (tick W H (inps n) oracle fuel s).bind (tickN W H inps oracle fuel n) = some s'
    rw [hstep]
    exact hrun

/-- Witness for `rest_fixed_point`: three ticks from `sRest` with no key
held. -/
theorem rest_fixed_point_witness :
    RestingNoContact 1000 500 sRest ∧
    ∃ s', tickN 1000 500 (fun _ => noKeys) zeroOracle 1 3 sRest = some s' ∧
      s'.playerPos = sRest.playerPos ∧ s'.verticalVelocity = 0 :=
  ⟨by decide, rest_fixed_point 1000 500 (fun _ => noKeys) zeroOracle 1 sRest 3
    (fun _ => ⟨rfl, rfl, rfl⟩) (by decide)⟩

/-- Any successful `generateLevel` run keeps the death and level counters
and leaves the player exactly on the (possibly updated) respawn anchor. -/
theorem generateLevel_fields (W H : ℚ) (oracle : ℕ → ℚ) (fuel : ℕ) (s s' : GameState)
    (h : generateLevel W H oracle fuel s = some s') :
    s'.deaths = s.deaths ∧ s'.level = s.level ∧ s'.playerPos = s'.lastSpawnPos := by
  unfold generateLevel at h
  split at h
  · simp only [Option.some.injEq] at h
    subst h
    exact ⟨rfl, rfl, rfl⟩
  · split at h
    · exact Option.noConfusion h
    · split at h
      · exact Option.noConfusion h
      · simp only [Option.some.injEq] at h
        subst h
        exact ⟨rfl, rfl, rfl⟩

/-- The goal phase never changes the death counter. -/
theorem goalPhase_deaths (W H : ℚ) (oracle : ℕ → ℚ) (fuel : ℕ) (s1 s2 : GameState)
    (h : goalPhase W H oracle fuel s1 = some s2) : s2.deaths = s1.deaths := by
  unfold goalPhase at h
  split at h
  · exact (generateLevel_fields W H oracle fuel _ s2 h).1
  · simp only [Option.some.injEq] at h
    subst h
    rfl

/-- A spike scan increments the death counter by at most one. -/
theorem hazardScan_deaths_le (s : GameState) (l : List Tri) :
    (hazardScan s l).deaths ≤ s.deaths + 1 := by
  induction l with
  | nil => exact Nat.le_succ _
  | cons t ts ih =>
    by_cases ht : rectTriCollide s.playerPos t
    · simp only [hazardScan, if_pos ht]
      exact le_rfl
    · simp only [hazardScan, if_neg ht]
      exact ih

/-- C6: a tick that takes the death counter from below ten to ten (it can
never jump past ten) leaves it at exactly ten, leaves the HUD at
"Lives left: 0", and from then on every tick is a no-op on the death and
level counters, the player position, the vertical velocity and the HUD —
the session never leaves the terminal game-over condition. -/
theorem gameover_terminal_frozen (W H : ℚ) (inp : Input) (inps : ℕ → Input)
    (oracle : ℕ → ℚ) (fuel : ℕ) (s s' : GameState)
    (hlt : s.deaths < 10) (hstep : tick W H inp oracle fuel s = some s')
    (hreach : 10 ≤ s'.deaths) :
    s'.deaths = 10 ∧ s'.livesText = "Lives left: 0" ∧
    ∀ n, ∃ s'', tickN W H inps oracle fuel n s' = some s'' ∧
      s''.deaths = s'.deaths ∧ s''.level = s'.level ∧ s''.playerPos = s'.playerPos ∧
      s''.verticalVelocity = s'.verticalVelocity ∧ s''.livesText = s'.livesText ∧
      isGameOver s'' := by
  unfold tick at hstep
  rw [if_neg (by omega : ¬ 10 ≤ s.deaths)] at hstep
  rw [Option.map_eq_some'] at hstep
  obtain ⟨s2, hgp, hs'⟩ := hstep
  have hd2 : s2.deaths = s.deaths := by
    rw [goalPhase_deaths W H oracle fuel _ s2 hgp]
    rfl
  have hdle : s'.deaths ≤ s.deaths + 1 := by
    rw [← hs']
    show (hazardScan s2 s2.triangles).deaths ≤ s.deaths + 1
    rw [← hd2]
    exact hazardScan_deaths_le s2 s2.triangles
  have h10 : s'.deaths = 10 := le_antisymm (by omega) hreach
  have hlives : s'.livesText = "Lives left: 0" := by
    rw [← hs']
    show livesString (hazardScan s2 s2.triangles).deaths = "Lives left: 0"
    have : (hazardScan s2 s2.triangles).deaths = 10 := by
      rw [← h10, ← hs']
      rfl
    rw [this]
    rfl
  refine ⟨h10, hlives, ?_⟩
  have freeze : ∀ n (t : GameState), 10 ≤ t.deaths →
      ∃ s'', tickN W H inps oracle fuel n t = some s'' ∧
        s''.deaths = t.deaths ∧ s''.level = t.level ∧ s''.playerPos = t.playerPos ∧
        s''.verticalVelocity = t.verticalVelocity ∧ s''.livesText = t.livesText ∧
        isGameOver s'' := by
    intro n
    induction n with
    | zero => exact fun t ht => ⟨t, rfl, rfl, rfl, rfl, rfl, rfl, ht⟩
    | succ n ih =>
      intro t ht
      obtain ⟨s'', h1, h2, h3, h4, h5, h6, h7⟩ := ih { t with gameOverShown := true } ht
      refine ⟨s'', ?_, h2, h3, h4, h5, h6, h7⟩
      show (tick W H (inps n) oracle fuel t).bind (tickN W H inps oracle fuel n) = some s''
      rw [tick_frozen W H (inps n) oracle fuel t ht]
      exact h1
  intro n
  exact freeze n s' (by omega)

/-- Witness for `gameover_terminal_frozen`: the state `sHaz` with nine
deaths lands on a spike, reaching ten. -/
theorem gameover_terminal_frozen_witness :
    sHaz.deaths < 10 ∧
    ∃ s', tick 1000 500 noKeys zeroOracle 1 sHaz = some s' ∧
      (s'.deaths = 10 ∧ s'.livesText = "Lives left: 0" ∧
      ∀ n, ∃ s'', tickN 1000 500 (fun _ => noKeys) zeroOracle 1 n s' = some s'' ∧
        s''.deaths = s'.deaths ∧ s''.level = s'.level ∧ s''.playerPos = s'.playerPos ∧
        s''.verticalVelocity = s'.verticalVelocity ∧ s''.livesText = s'.livesText ∧
        isGameOver s'') := by
  have h : tick 1000 500 noKeys zeroOracle 1 sHaz = some sHazAfter := by decide
  exact ⟨by decide, sHazAfter, h,
    gameover_terminal_frozen 1000 500 noKeys (fun _ => noKeys) zeroOracle 1 sHaz sHazAfter
      (by decide) h (by decide)⟩

/-- C7: on a playing tick whose post-goal-handling state `s2` touches at
least one spike, the tick returns with the death counter incremented by
exactly one (however many spikes are touched — the scan stops at the
first hit), the player teleported to the respawn anchor, and the vertical
velocity exactly as `s2` left it (the hazard path does not modify it).
The hazard scan consumes the state *after* the goal check (`s2`), never
the pre-goal state, which formalizes that hazard handling runs after goal
handling in the same tick. -/
theorem hazard_hit_after_goal (W H : ℚ) (inp : Input) (oracle : ℕ → ℚ) (fuel : ℕ)
    (s s2 : GameState)
    (hd : s.deaths < 10)
    (hs2 : goalPhase W H oracle fuel (movePhase W H inp s) = some s2)
    (hhit : ∃ t ∈ s2.triangles, rectTriCollide s2.playerPos t) :
    ∃ s', tick W H inp oracle fuel s = some s' ∧
      s'.deaths = s.deaths + 1 ∧ s'.playerPos = s2.lastSpawnPos ∧
      s'.verticalVelocity = s2.verticalVelocity ∧ s'.level = s2.level := by
  have hd2 : s2.deaths = s.deaths := by
    rw [goalPhase_deaths W H oracle fuel _ s2 hs2]
    rfl
  have hscan := hazardScan_hit s2 s2.triangles hhit
  refine ⟨updateHUD { s2 with deaths := s2.deaths + 1, playerPos := s2.lastSpawnPos }, ?_,
    ?_, rfl, rfl, rfl⟩
  · unfold tick
    rw [if_neg (by omega : ¬ 10 ≤ s.deaths), hs2]
    simp only [Option.map_some']
    rw [hscan]
  · show s2.deaths + 1 = s.deaths + 1
    omega

/-- Witness for `hazard_hit_after_goal`: the spec scenario — three deaths
on the counter, a spike is hit, the counter becomes four and the player
teleports to the anchor with the velocity untouched. -/
theorem hazard_hit_after_goal_witness :
    sHaz3.deaths < 10 ∧
    goalPhase 1000 500 zeroOracle 1 (movePhase 1000 500 noKeys sHaz3) = some sHaz3Moved ∧
    (∃ t ∈ sHaz3Moved.triangles, rectTriCollide sHaz3Moved.playerPos t) ∧
    ∃ s', tick 1000 500 noKeys zeroOracle 1 sHaz3 = some s' ∧
      s'.deaths = sHaz3.deaths + 1 ∧ s'.playerPos = sHaz3Moved.lastSpawnPos ∧
      s'.verticalVelocity = sHaz3Moved.verticalVelocity ∧ s'.level = sHaz3Moved.level :=
  ⟨by decide, by decide, by decide,
    hazard_hit_after_goal 1000 500 noKeys zeroOracle 1 sHaz3 sHaz3Moved
      (by decide) (by decide) (by decide)⟩

/-- C10: on a playing tick where the player (after the move phase) touches
the win circle and the level generator succeeds, the tick equals the spike
scan applied to the freshly generated state `s2`: the level counter has
incremented, the player already sits on the (new) respawn anchor, and the
scan runs over `s2`'s spike list — the spikes of the completed level are
never consulted on a winning tick. -/
theorem win_tick_new_hazards (W H : ℚ) (inp : Input) (oracle : ℕ → ℚ) (fuel : ℕ)
    (s s2 : GameState)
    (hd : s.deaths < 10)
    (hg : rectCircleCollide (movePhase W H inp s).playerPos (movePhase W H inp s).winCircle)
    (hgen : generateLevel W H oracle fuel
        { movePhase W H inp s with level := (movePhase W H inp s).level + 1 } = some s2) :
    tick W H inp oracle fuel s = some (updateHUD (hazardScan s2 s2.triangles)) ∧
    s2.level = s.level + 1 ∧ s2.playerPos = s2.lastSpawnPos := by
  obtain ⟨hdth, hlvl, hpp⟩ := generateLevel_fields W H oracle fuel _ s2 hgen
  refine ⟨?_, ?_, hpp⟩
  · unfold tick
    rw [if_neg (by omega : ¬ 10 ≤ s.deaths)]
    unfold goalPhase
    rw [if_pos hg, hgen]
    simp only [Option.map_some']
  · rw [hlvl]
    rfl

/-- Witness for `win_tick_new_hazards`: the state `sWin` overlaps its win
circle after the move phase; the generated level is scanned instead of the
old spike list. -/
theorem win_tick_new_hazards_witness :
    sWin.deaths < 10 ∧
    rectCircleCollide (movePhase 1000 500 noKeys sWin).playerPos
      (movePhase 1000 500 noKeys sWin).winCircle ∧
    ∃ s2, generateLevel 1000 500 zeroOracle 1
        { movePhase 1000 500 noKeys sWin with
          level := (movePhase 1000 500 noKeys sWin).level + 1 } = some s2 ∧
      tick 1000 500 noKeys zeroOracle 1 sWin = some (updateHUD (hazardScan s2 s2.triangles)) ∧
      s2.level = sWin.level + 1 ∧ s2.playerPos = s2.lastSpawnPos := by
  have h : (generateLevel 1000 500 zeroOracle 1
      { movePhase 1000 500 noKeys sWin with
        level := (movePhase 1000 500 noKeys sWin).level + 1 }).isSome = true := by decide
  exact ⟨by decide, by decide,
    (generateLevel 1000 500 zeroOracle 1
      { movePhase 1000 500 noKeys sWin with
        level := (movePhase 1000 500 noKeys sWin).level + 1 }).get h,
    (Option.some_get h).symm,
    win_tick_new_hazards 1000 500 noKeys zeroOracle 1 sWin
      ((generateLevel 1000 500 zeroOracle 1
        { movePhase 1000 500 noKeys sWin with
          level := (movePhase 1000 500 noKeys sWin).level + 1 }).get h)
      (by decide) (by decide) (Option.some_get h).symm⟩

/-- If no platform passes the landing test, the platform loop leaves the
tentative position and velocity alone and does not set `onGround`. -/
theorem landScan_nomatch (curY : ℚ) (next : Pt) (v : ℤ) (l : List RectQ)
    (h : ∀ q ∈ l, ¬ landCond curY next v q) :
    landScan curY next v l = ⟨next, v, false⟩ := by
  induction l with
  | nil => rfl
  | cons p ps ih =>
    have hp := h p (List.mem_cons_self p ps)
    simp only [landScan, if_neg hp]
    exact ih fun q hq => h q (List.mem_cons_of_mem p hq)

/-- C1: in the landing resolution of a tick, if the player's tentative
next-frame box intersects a platform, the post-gravity vertical velocity is
`≤ 0`, and the current bottom edge is at or above that platform's top edge,
and no earlier platform in iteration order passes the same test, then the
loop snaps the player's bottom edge to that platform's top edge
(`next.y = p.y - 20`, so bottom `= p.y`), zeroes the vertical velocity and
marks `onGround` — and the result is the same for every tail `l2`, so no
later platform is ever considered. -/
theorem landing_first_match (curY : ℚ) (next : Pt) (v : ℤ) (l1 l2 : List RectQ) (p : RectQ)
    (h1 : ∀ q ∈ l1, ¬ landCond curY next v q) (h2 : landCond curY next v p) :
    landScan curY next v (l1 ++ p :: l2) = ⟨⟨next.x, p.y - 20⟩, 0, true⟩ := by
  induction l1 with
  | nil => simp only [List.nil_append, landScan, if_pos h2]
  | cons q qs ih =>
    have hq := h1 q (List.mem_cons_self q qs)
    simp only [List.cons_append, landScan, if_neg hq]
    exact ih fun r hr => h1 r (List.mem_cons_of_mem q hr)

/-- Witness for `landing_first_match` at a concrete configuration: a
non-matching platform first, then the matching one, then a junk platform
that is ignored. -/
theorem landing_first_match_witness :
    (∀ q ∈ [(⟨0, 0, 10, 10⟩ : RectQ)], ¬ landCond 380 ⟨500, 381⟩ (-1) q) ∧
    landCond 380 ⟨500, 381⟩ (-1) ⟨480, 400, 100, 10⟩ ∧
    landScan 380 ⟨500, 381⟩ (-1)
        ([⟨0, 0, 10, 10⟩] ++ (⟨480, 400, 100, 10⟩ : RectQ) :: [⟨490, 400, 100, 10⟩]) =
      ⟨⟨500, 380⟩, 0, true⟩ :=
  ⟨by decide, by decide,
    landing_first_match 380 ⟨500, 381⟩ (-1) [⟨0, 0, 10, 10⟩] [⟨490, 400, 100, 10⟩]
      ⟨480, 400, 100, 10⟩ (by decide) (by decide)⟩

/-- C3: on an airborne tick — no platform passes the landing test and the
floor clamp does not trigger — the vertical velocity strictly decreases by
exactly one (over `ℤ`, so with no lower bound), and the committed vertical
position is the tentative one: the current position minus the decremented
velocity. -/
theorem gravity_step_airborne (W H : ℚ) (inp : Input) (s : GameState)
    (hnoland : ∀ q ∈ s.platforms,
      ¬ landCond s.playerPos.y
        ⟨tentativeX inp s, s.playerPos.y - ((s.verticalVelocity - 1 : ℤ) : ℚ)⟩
        (s.verticalVelocity - 1) q)
    (hnofloor : s.playerPos.y - ((s.verticalVelocity - 1 : ℤ) : ℚ) < H - 20) :
    (movePhase W H inp s).verticalVelocity = s.verticalVelocity - 1 ∧
    (movePhase W H inp s).playerPos.y = s.playerPos.y - ((s.verticalVelocity - 1 : ℤ) : ℚ) := by
  have hl := landScan_nomatch s.playerPos.y
    ⟨tentativeX inp s, s.playerPos.y - ((s.verticalVelocity - 1 : ℤ) : ℚ)⟩
    (s.verticalVelocity - 1) s.platforms hnoland
  have hg : groundedRes H inp s =
      ⟨⟨tentativeX inp s, s.playerPos.y - ((s.verticalVelocity - 1 : ℤ) : ℚ)⟩,
        s.verticalVelocity - 1, false⟩ := by
    unfold groundedRes
    rw [hl]
    unfold floorClamp
    simp only
    rw [if_neg (not_le.mpr hnofloor)]
  constructor
  · rw [show (movePhase W H inp s).verticalVelocity =
        (if inp.w && (groundedRes H inp s).og then 20 else (groundedRes H inp s).vel) from rfl, hg]
    simp
  · rw [show (movePhase W H inp s).playerPos.y = (groundedRes H inp s).pos.y from rfl, hg]

/-- Witness for `gravity_step_airborne`: the free-fall state `sAir`. -/
theorem gravity_step_airborne_witness :
    (∀ q ∈ sAir.platforms,
      ¬ landCond sAir.playerPos.y
        ⟨tentativeX noKeys sAir, sAir.playerPos.y - ((sAir.verticalVelocity - 1 : ℤ) : ℚ)⟩
        (sAir.verticalVelocity - 1) q) ∧
    (movePhase 1000 500 noKeys sAir).verticalVelocity = sAir.verticalVelocity - 1 ∧
    (movePhase 1000 500 noKeys sAir).playerPos.y =
      sAir.playerPos.y - ((sAir.verticalVelocity - 1 : ℤ) : ℚ) :=
  ⟨by decide, gravity_step_airborne 1000 500 noKeys sAir (by decide) (by decide)⟩

/-- C9: on a tick where the jump key is held and the vertical resolution
marks the player on-ground, the committed velocity is `20`, yet the
committed position is exactly the one the same tick would commit without
the jump key: the jump only changes the velocity after the vertical
position was resolved, so the upward displacement first appears on the
next tick. -/
theorem jump_deferred_one_tick (W H : ℚ) (inp : Input) (s : GameState)
    (hw : inp.w = true) (hog : (groundedRes H inp s).og = true) :
    (movePhase W H inp s).verticalVelocity = 20 ∧
    (movePhase W H inp s).playerPos = (movePhase W H ⟨inp.a, inp.d, false⟩ s).playerPos := by
  have hsame : groundedRes H ⟨inp.a, inp.d, false⟩ s = groundedRes H inp s := rfl
  constructor
  · simp only [movePhase, hw, hog, Bool.and_self, if_pos]
  · simp only [movePhase, hsame]

/-- Witness for `jump_deferred_one_tick`: the resting state `sRest` with
the jump key held. -/
theorem jump_deferred_one_tick_witness :
    (groundedRes 500 jumpKey sRest).og = true ∧
    (movePhase 1000 500 jumpKey sRest).verticalVelocity = 20 ∧
    (movePhase 1000 500 jumpKey sRest).playerPos =
      (movePhase 1000 500 ⟨jumpKey.a, jumpKey.d, false⟩ sRest).playerPos :=
  ⟨by decide, jump_deferred_one_tick 1000 500 jumpKey sRest (by decide) (by decide)⟩

/-- A successful run of the per-band rejection loop returns an x outside
the spawn exclusion zone for its band height `y`. -/
theorem sampleX_excl (oracle : ℕ → ℚ) (spawn : Pt) (y W : ℚ) (k fuel : ℕ) (x : ℚ) (k' : ℕ)
    (h : sampleX oracle spawn y W k fuel = some (x, k')) :
    ¬ (|x - spawn.x| < 100 ∧ |y - spawn.y| < 80) := by
  induction fuel generalizing k with
  | zero => exact Option.noConfusion h
  | succ fuel ih =>
    unfold sampleX at h
    split at h
    · exact ih _ h
    · rename_i hcond
      simp only [Option.some.injEq, Prod.mk.injEq] at h
      rw [← h.1]
      exact hcond

/-- Every platform produced by the path-platform loop lies outside the
spawn exclusion zone. -/
theorem genPath_excl (oracle : ℕ → ℚ) (spawn : Pt) (stepY W : ℚ) (n i k fuel : ℕ)
    (ps : List RectQ) (ts : List Tri) (k' : ℕ)
    (h : genPath oracle spawn stepY W n i k fuel = some (ps, ts, k')) :
    ∀ p ∈ ps, ¬ (|p.x - spawn.x| < 100 ∧ |p.y - spawn.y| < 80) := by
  induction n generalizing i k ps ts k' with
  | zero =>
    unfold genPath at h
    simp only [Option.some.injEq, Prod.mk.injEq] at h
    rw [← h.1]
    intro p hp
    simp at hp
  | succ n ih =>
    unfold genPath at h
    split at h
    · exact Option.noConfusion h
    · rename_i x k1 hsx
      split at h
      · split at h
        · exact Option.noConfusion h
        · rename_i ps1 ts1 k2 hrec
          simp only [Option.some.injEq, Prod.mk.injEq] at h
          rw [← h.1]
          intro p hp
          rcases List.mem_cons.mp hp with rfl | hp1
          · simpa using sampleX_excl oracle spawn (spawn.y - (i : ℚ) * stepY) W k fuel x k1 hsx
          · exact ih (i + 1) (k1 + 2) ps1 ts1 k2 hrec p hp1
      · split at h
        · exact Option.noConfusion h
        · rename_i ps1 ts1 k2 hrec
          simp only [Option.some.injEq, Prod.mk.injEq] at h
          rw [← h.1]
          intro p hp
          rcases List.mem_cons.mp hp with rfl | hp1
          · simpa using sampleX_excl oracle spawn (spawn.y - (i : ℚ) * stepY) W k fuel x k1 hsx
          · exact ih (i + 1) (k1 + 1) ps1 ts1 k2 hrec p hp1

/-- C4: any successful non-bootstrap generation splits its platform list
into the path platforms followed by the safe platforms, and every path
platform lies outside the `100 x 80` spawn exclusion test of the source
(`|x - spawn.x| < 100` and `|y - spawn.y| < 80` both failing is exactly
the loop's exit condition). -/
theorem path_platforms_outside_exclusion (W H : ℚ) (oracle : ℕ → ℚ) (fuel : ℕ)
    (s s' : GameState)
    (hnb : ¬ bootstrapCond s)
    (h : generateLevel W H oracle fuel s = some s') :
    ∃ path safe, s'.platforms = path ++ safe ∧
      ∀ p ∈ path, ¬ (|p.x - s.lastSpawnPos.x| < 100 ∧ |p.y - s.lastSpawnPos.y| < 80) := by
  unfold generateLevel at h
  rw [if_neg hnb] at h
  split at h
  · exact Option.noConfusion h
  · rename_i win k1 hsg
    split at h
    · exact Option.noConfusion h
    · rename_i pp tris k2 hgp
      simp only [Option.some.injEq] at h
      subst h
      exact ⟨pp, _, rfl,
        genPath_excl oracle s.lastSpawnPos ((s.lastSpawnPos.y - win.y) / 14) W 14 0 k1 fuel
          pp tris k2 hgp⟩

/-- Witness for `path_platforms_outside_exclusion`: the concrete state
`sGen` with the constant oracle. -/
theorem path_platforms_outside_exclusion_witness :
    ¬ bootstrapCond sGen ∧
    ∃ s', generateLevel 1000 500 zeroOracle 1 sGen = some s' ∧
      ∃ path safe, s'.platforms = path ++ safe ∧
        ∀ p ∈ path,
          ¬ (|p.x - sGen.lastSpawnPos.x| < 100 ∧ |p.y - sGen.lastSpawnPos.y| < 80) := by
  have h : (generateLevel 1000 500 zeroOracle 1 sGen).isSome = true := by decide
  exact ⟨by decide, (generateLevel 1000 500 zeroOracle 1 sGen).get h, (Option.some_get h).symm,
    path_platforms_outside_exclusion 1000 500 zeroOracle 1 sGen
      ((generateLevel 1000 500 zeroOracle 1 sGen).get h) (by decide) (Option.some_get h).symm⟩

/-- The model of a real `bounded` draw lands in `[0, hi)` whenever the
bound is positive. -/
theorem boundedQ_range (r hi : ℚ) (h : 0 < hi) : 0 ≤ boundedQ r hi ∧ boundedQ r hi < hi := by
  unfold boundedQ
  split
  · rename_i hc
    exact hc
  · exact ⟨le_refl 0, h⟩

/-- A successful goal-sampling run returns a point at squared distance at
least `150 * 150` from the spawn, inside `[0, W) x [0, H / 2)`. -/
theorem sampleGoal_spec (oracle : ℕ → ℚ) (spawn : Pt) (W H : ℚ) (k fuel : ℕ) (p : Pt) (k' : ℕ)
    (hW : 0 < W) (hH : 0 < H)
    (h : sampleGoal oracle spawn W H k fuel = some (p, k')) :
    150 * 150 ≤ distSq spawn p ∧ 0 ≤ p.x ∧ p.x < W ∧ 0 ≤ p.y ∧ p.y < H / 2 := by
  induction fuel generalizing k with
  | zero => exact Option.noConfusion h
  | succ fuel ih =>
    unfold sampleGoal at h
    split at h
    · exact ih _ h
    · rename_i hcond
      simp only [Option.some.injEq, Prod.mk.injEq] at h
      rw [← h.1]
      have h1 := boundedQ_range (oracle k) W hW
      have h2 := boundedQ_range (oracle (k + 1)) (H / 2) (by linarith)
      exact ⟨not_lt.mp hcond, h1.1, h1.2, h2.1, h2.2⟩

/-- C5: for a positive scene size, any successful non-bootstrap generation
places the goal at squared distance at least `150 * 150` (that is,
Euclidean distance at least 150) from the spawn anchor, with its
horizontal coordinate in the scene's full horizontal extent `[0, W)` and
its vertical coordinate in the top half `[0, H / 2)` of the vertical
extent. -/
theorem goal_separation_and_range (W H : ℚ) (oracle : ℕ → ℚ) (fuel : ℕ) (s s' : GameState)
    (hW : 0 < W) (hH : 0 < H) (hnb : ¬ bootstrapCond s)
    (h : generateLevel W H oracle fuel s = some s') :
    150 * 150 ≤ distSq s.lastSpawnPos ⟨s'.winCircle.x, s'.winCircle.y⟩ ∧
    0 ≤ s'.winCircle.x ∧ s'.winCircle.x < W ∧
    0 ≤ s'.winCircle.y ∧ s'.winCircle.y < H / 2 := by
  unfold generateLevel at h
  rw [if_neg hnb] at h
  split at h
  · exact Option.noConfusion h
  · rename_i win k1 hsg
    split at h
    · exact Option.noConfusion h
    · rename_i pp tris k2 hgp
      simp only [Option.some.injEq] at h
      subst h
      exact sampleGoal_spec oracle s.lastSpawnPos W H s.rngIdx fuel win k1 hW hH hsg

/-- Witness for `goal_separation_and_range`: the concrete state `sGen`
with the constant oracle. -/
theorem goal_separation_and_range_witness :
    (0 : ℚ) < 1000 ∧ (0 : ℚ) < 500 ∧ ¬ bootstrapCond sGen ∧
    ∃ s', generateLevel 1000 500 zeroOracle 1 sGen = some s' ∧
      (150 * 150 ≤ distSq sGen.lastSpawnPos ⟨s'.winCircle.x, s'.winCircle.y⟩ ∧
       0 ≤ s'.winCircle.x ∧ s'.winCircle.x < 1000 ∧
       0 ≤ s'.winCircle.y ∧ s'.winCircle.y < 500 / 2) := by
  have h : (generateLevel 1000 500 zeroOracle 1 sGen).isSome = true := by decide
  exact ⟨by decide, by decide, by decide,
    (generateLevel 1000 500 zeroOracle 1 sGen).get h, (Option.some_get h).symm,
    goal_separation_and_range 1000 500 zeroOracle 1 sGen
      ((generateLevel 1000 500 zeroOracle 1 sGen).get h)
      (by decide) (by decide) (by decide) (Option.some_get h).symm⟩

/-- C8, counterexample: at scene size `1000 x 500` the bootstrap spawn
point is `(500, 480)` and the single bootstrap platform is
`(460, 500, 100, 10)`, whose horizontal center is `460 + 50 = 510`, not
the spawn x `500`: the platform is not centered on the spawn *point* (it
is centered under the player's `20`-wide box, whose center is
`spawn.x + 10`). -/
theorem bootstrap_platform_not_centered :
    bootstrapCond sBoot ∧
    (generateLevel 1000 500 zeroOracle 1 sBoot).map (fun t => (t.playerPos, t.platforms)) =
      some (⟨500, 480⟩, [⟨460, 500, 100, 10⟩]) ∧
    ¬ ((460 : ℚ) + 100 / 2 = 500) :=
  ⟨by decide, by decide, by decide⟩

/-- C8, amended: for every scene size, a bootstrap generation always
succeeds and yields: spawn point at the horizontal center and at the
bottom minus the player height; the player and the respawn anchor on the
spawn point; exactly one platform, of size `100 x 10`, directly beneath
the spawn (top edge at the player's bottom edge, spawn x within its span)
and centered under the player's box (center `spawn.x + 10`, not the spawn
point itself); and the goal ellipse exactly `100` px left of the spawn and
`50` px above the scene bottom. -/
theorem bootstrap_layout (W H : ℚ) (oracle : ℕ → ℚ) (fuel : ℕ) (s : GameState)
    (hb : bootstrapCond s) :
    ∃ s', generateLevel W H oracle fuel s = some s' ∧
      s'.playerPos = ⟨W / 2, H - 20⟩ ∧ s'.lastSpawnPos = s'.playerPos ∧
      s'.platforms = [⟨s'.playerPos.x - 40, s'.playerPos.y + 20, 100, 10⟩] ∧
      (∀ p ∈ s'.platforms, p.x + p.w / 2 = s'.playerPos.x + 10 ∧
        p.x ≤ s'.playerPos.x ∧ s'.playerPos.x ≤ p.x + p.w ∧
        p.y = s'.playerPos.y + 20) ∧
      s'.winCircle = ⟨s'.playerPos.x - 100, H - 50, 30, 30⟩ ∧
      s'.triangles = [] := by
  refine ⟨updateHUD { s with
      playerPos := ⟨W / 2, H - 20⟩
      lastSpawnPos := ⟨W / 2, H - 20⟩
      winCircle := ⟨W / 2 - 100, H - 50, 30, 30⟩
      platforms := [⟨W / 2 - 40, (H - 20) + 20, 100, 10⟩]
      triangles := []
      gameOverShown := false }, ?_, rfl, rfl, rfl, ?_, rfl, rfl⟩
  · unfold generateLevel
    rw [if_pos hb]
  · intro p hp
    have hp' : p = ⟨W / 2 - 40, (H - 20) + 20, 100, 10⟩ := by
      simpa [updateHUD] using hp
    subst hp'
    refine ⟨?_, ?_, ?_, ?_⟩
    · show (W / 2 - 40) + 100 / 2 = W / 2 + 10
      ring
    · show W / 2 - 40 ≤ W / 2
      linarith
    · show W / 2 ≤ (W / 2 - 40) + 100
      linarith
    · show (H - 20) + 20 = (H - 20) + 20
      rfl

/-- Witness for `bootstrap_layout`: the bootstrap state `sBoot` at scene
size `1000 x 500`. -/
theorem bootstrap_layout_witness :
    bootstrapCond sBoot ∧
    ∃ s', generateLevel 1000 500 zeroOracle 1 sBoot = some s' ∧
      s'.playerPos = ⟨1000 / 2, 500 - 20⟩ ∧ s'.lastSpawnPos = s'.playerPos ∧
      s'.platforms = [⟨s'.playerPos.x - 40, s'.playerPos.y + 20, 100, 10⟩] ∧
      (∀ p ∈ s'.platforms, p.x + p.w / 2 = s'.playerPos.x + 10 ∧
        p.x ≤ s'.playerPos.x ∧ s'.playerPos.x ≤ p.x + p.w ∧
        p.y = s'.playerPos.y + 20) ∧
      s'.winCircle = ⟨s'.playerPos.x - 100, 500 - 50, 30, 30⟩ ∧
      s'.triangles = [] :=
  ⟨by decide, bootstrap_layout 1000 500 zeroOracle 1 sBoot (by decide)⟩
